import Mathlib

/-!
Verification development for the compression engine of PDF_Facil_Desktop
(`src/engine/pdf_ops.py`, `src/engine/engine_config.py`, `src/bridge.py`).

The Python code drives three external capabilities: PyMuPDF (`fitz`) for
PDF parsing/rendering, Pillow (`PIL`) for image decode/encode/resize, and
`img2pdf` for lossless image→PDF wrapping.  Those capabilities are modelled
as an explicit oracle structure `Ext` of (possibly failing) functions; the
repository's own control flow is translated statement by statement on top
of it.  Python exceptions are modelled with `Except Unit`; a Python
`try/except` block is a `match` on the `Except` value.  Byte strings are
modelled as an abstract tag plus a length (`Bytes`): the code under
verification only ever branches on lengths and passes the payloads through.
Machine floats are idealised as exact rationals (`ℚ`); `math.sqrt` is an
abstract oracle function.
-/

namespace PdfFacil

/-- Abstract byte string: an identity tag plus its length.  The engine only
inspects `len(...)` of byte strings and otherwise passes them around. -/
structure Bytes where
  tag : ℕ
  len : ℕ
  deriving DecidableEq, Repr

/-- `jpg_b + b"\x00" * 1024` — the conservative padding fallback used when
`img2pdf.convert` raises: same payload, 1024 more bytes. -/
def pad1024 (b : Bytes) : Bytes := ⟨b.tag, b.len + 1024⟩

/-- PIL image mode (only the modes the code branches on are distinguished). -/
inductive PMode where
  | RGB | RGBA | P | other
  deriving DecidableEq, Repr

/-- In-memory PIL image: pixel dimensions, an abstract content tag and the
color mode.  `resize`/`convert` keep the content abstract via the oracle. -/
structure PImage where
  w : ℕ
  h : ℕ
  tag : ℕ
  mode : PMode
  deriving DecidableEq, Repr

/-- A page of an open `fitz` document: its media-box size in points, its
stored `/Rotate` value, and an abstract content tag. -/
structure FPage where
  w : ℚ
  h : ℚ
  rotation : ℤ
  tag : ℕ
  deriving DecidableEq, Repr

/-- An open `fitz` document is its list of pages. -/
structure FDoc where
  pages : List FPage
  deriving DecidableEq, Repr

/-- A page of the destination document being assembled by `merge_pages` /
the `smart` branch of `compress_pdf`: either a page copied 1:1 with
`insert_pdf` or a fresh page holding one inserted JPEG raster.  `rot` is the
page's final `/Rotate` value (after the optional `set_rotation`). -/
inductive OutPage where
  | copied (pg : FPage) (rot : ℤ)
  | raster (w h : ℚ) (jpeg : Bytes) (rot : ℤ)
  deriving DecidableEq, Repr

/-- Final `/Rotate` value of an assembled page. -/
def OutPage.rot : OutPage → ℤ
  | .copied _ r => r
  | .raster _ _ _ r => r

/-- The external capabilities (PyMuPDF, Pillow, img2pdf) the engine calls
into.  Functions that can raise in Python return `Except Unit`. -/
structure Ext where
  /-- `fitz.open("pdf", data)` — fails on unreadable bytes. -/
  openPdf : Bytes → Except Unit FDoc
  /-- `page.get_text("text")` — may raise. -/
  getText : FPage → Except Unit String
  /-- `page.get_drawings()` (as its length-relevant list) — may raise. -/
  getDrawings : FPage → Except Unit (List ℕ)
  /-- `page.get_pixmap(dpi)/get_pixmap(matrix)` followed by
  `pix.tobytes("jpeg", jpg_quality=q)` — may raise. -/
  pixJpeg : FPage → ℕ → ℕ → Except Unit Bytes
  /-- `dst.insert_pdf(src, from_page=i, to_page=i)` — may raise. -/
  insertPdf : FDoc → ℕ → Except Unit Unit
  /-- `doc.write(garbage=4, deflate=True, clean=True)` on an assembled
  destination document. -/
  writeDoc : List OutPage → Bytes
  /-- `img2pdf.convert(...)` on one byte string or a list of them — may
  raise (e.g. unsupported codec). -/
  img2pdf : List Bytes → Except Unit Bytes
  /-- `PIL.Image.open(io.BytesIO(b))` — fails on undecodable bytes. -/
  imageOpen : Bytes → Except Unit PImage
  /-- content tag of `img.convert("RGB")`. -/
  rgbTag : PImage → ℕ
  /-- content tag of `img.resize((w, h), LANCZOS)`. -/
  resizedTag : PImage → ℕ → ℕ → ℕ
  /-- `img.save(buf, "JPEG", quality=q, subsampling=s, optimize=o,
  progressive=p)`: the encoded JPEG for the current image. -/
  encJ : PImage → ℕ → Option ℕ → Bool → Bool → Bytes
  /-- `math.sqrt` on a (float) rational. -/
  fsqrt : ℚ → ℚ

/-- `img.convert("RGB")`: same dimensions, mode RGB, oracle content tag. -/
def convertRGB (O : Ext) (im : PImage) : PImage :=
  ⟨im.w, im.h, O.rgbTag im, PMode.RGB⟩

/-- `img.resize((w, h), RESAMPLE_LANCZOS)`. -/
def resizeImg (O : Ext) (im : PImage) (w h : ℕ) : PImage :=
  ⟨w, h, O.resizedTag im w h, im.mode⟩

/-- Indexing that raises (`list[i]`, `doc.load_page(i)` …): `none` becomes
an exception. -/
def getOrThrow : Option α → Except Unit α
  | some a => Except.ok a
  | none => Except.error ()

/-- Python `try: ... except Exception: <fallback>` around a whole
computation: an exception is swallowed and replaced by the fallback. -/
def pyTryOr (fb : α) : Except Unit α → α
  | Except.ok v => v
  | Except.error _ => fb

/-- `engine_config.LEVELS[...]` preset row. -/
structure LevelP where
  mode : String
  dpi : ℕ
  jpg_q : ℕ
  deriving DecidableEq, Repr

/-- `LEVELS.get(level or "none", LEVELS["none"])`: the preset table from
`engine_config.py`.  Any unknown (or empty) level resolves to the `none`
row, whose `dpi`/`jpg_q` are `None` in Python and never read (modelled 0). -/
def LEVELS (s : String) : LevelP :=
  if s = "min" then ⟨"smart", 200, 85⟩
  else if s = "med" then ⟨"all", 150, 70⟩
  else if s = "max" then ⟨"all", 110, 50⟩
  else ⟨"none", 0, 0⟩

/-- `_is_image_only(page)` from `pdf_ops.py`: no extractable text and no
vector drawings; each signal defaults to `False` when its extraction
raises. -/
def _is_image_only (O : Ext) (page : FPage) : Bool :=
  let has_text : Bool :=
    match O.getText page with
    | Except.ok s => decide (s ≠ "")
    | Except.error _ => false
  let has_vectors : Bool :=
    match O.getDrawings page with
    | Except.ok l => decide (0 < l.length)
    | Except.error _ => false
  (!has_text) && (!has_vectors)

/-- Requested raster pixel count of a page at a given DPI, in exact
arithmetic: `(r.width * dpi / 72.0) * (r.height * dpi / 72.0)`. -/
def pxQ (w h : ℚ) (dpi : ℕ) : ℚ :=
  (w * dpi / 72) * (h * dpi / 72)

/-- `_cap_dpi_for_page(page, dpi, max_megapixels=80)`.  In the source,
`int(dpi * math.sqrt(max_px / px))` truncates a float; with exact reals
`⌊dpi·√(max_px/px)⌋ = ⌊√(dpi²·max_px/px)⌋ = Nat.sqrt ⌊dpi²·max_px/px⌋`,
which is how it is computed here (floats only approximate this). -/
def _cap_dpi_for_page (w h : ℚ) (dpi : ℕ) (max_megapixels : ℕ := 80) : ℕ :=
  let px : ℚ := pxQ w h dpi
  let max_px : ℚ := max_megapixels * 1000000
  if px ≤ max_px then dpi
  else max 72 (Nat.sqrt (Int.toNat ⌊(dpi ^ 2 * max_px) / px⌋))

/-! ## `_jpeg_bytes_with_band` (pdf_ops.py lines 43–123)

The closed-loop JPEG re-encoder.  `_enc(qv, subsamp, optimize, progressive)`
resolves the effective subsampling (`use_sub = subsamp if subsamp is not
None else subsamp_default`) and saves the *current* working image; the
`except TypeError` branch only matters on Pillow < 10 and is not modelled.
-/

/-- `_enc` of `_jpeg_bytes_with_band`. -/
def encQ (O : Ext) (img : PImage) (subdef : Option ℕ) (qv : ℕ)
    (subsamp : Option ℕ) (optimize progressive : Bool) : Bytes :=
  let use_sub := match subsamp with
    | some s => some s
    | none => subdef
  O.encJ img qv use_sub optimize progressive

/-- `int(x)` of a nonnegative float/ratio value (truncation = floor). -/
def ratFloorNat (x : ℚ) : ℕ := (⌊x⌋).toNat

/-- Ceiling pass (step 1): `while len(out) > ceil_len and q > q_floor:
q -= 3; out = _enc(q)`. -/
def ceilLoop (O : Ext) (img : PImage) (subdef : Option ℕ)
    (ceil_len q_floor : ℕ) (q : ℕ) (out : Bytes) : ℕ × Bytes :=
  if h : ceil_len < out.len ∧ q_floor < q then
    ceilLoop O img subdef ceil_len q_floor (q - 3)
      (encQ O img subdef (q - 3) none true true)
  else (q, out)
termination_by q
decreasing_by simp_wf; omega

/-- Dimension update of one downscale step:
`w = max(1, int(w * scale))`. -/
def scaleSide (n : ℕ) (scale : ℚ) : ℕ := max 1 (Int.toNat ⌊(n : ℚ) * scale⌋)

lemma scaleSide_le_of_big {n : ℕ} {s : ℚ} (h0 : 0 ≤ s) (hs : s ≤ 49 / 50)
    (hn : 960 < n) : scaleSide n s ≤ n - 20 := by
  have hfloor : ⌊(n : ℚ) * s⌋ ≤ (n : ℤ) - 20 := by
    have h1 : (n : ℚ) * s ≤ (n : ℚ) * (49 / 50) :=
      mul_le_mul_of_nonneg_left hs (by positivity)
    have h2 : (n : ℚ) * (49 / 50) ≤ (n : ℚ) - 96 / 5 := by
      have : (96 : ℚ) / 5 ≤ (n : ℚ) / 50 := by
        rw [div_le_div_iff (by norm_num) (by norm_num)]
        have : (960 : ℚ) < (n : ℚ) := by exact_mod_cast hn
        linarith
      linarith
    have h3 : ⌊(n : ℚ) * s⌋ ≤ ⌊(n : ℚ) - 96 / 5⌋ :=
      Int.floor_le_floor (le_trans h1 h2)
    have h4 : ⌊(n : ℚ) - 96 / 5⌋ ≤ (n : ℤ) - 20 := by
      rw [Int.floor_le_iff]
      push_cast
      linarith
    omega
  have h5 : Int.toNat ⌊(n : ℚ) * s⌋ ≤ n - 20 := by omega
  have h6 : 1 ≤ n - 20 := by omega
  unfold scaleSide
  omega

lemma scaleSide_le_succ {n : ℕ} {s : ℚ} (hs : s ≤ 49 / 50) :
    scaleSide n s ≤ n + 1 := by
  have hfloor : ⌊(n : ℚ) * s⌋ ≤ (n : ℤ) := by
    rcases le_or_lt s 0 with h | h
    · have : (n : ℚ) * s ≤ 0 := mul_nonpos_of_nonneg_of_nonpos (by positivity) h
      calc ⌊(n : ℚ) * s⌋ ≤ ⌊(0 : ℚ)⌋ := Int.floor_le_floor this
        _ ≤ (n : ℤ) := by simp
    · have h1 : (n : ℚ) * s ≤ (n : ℚ) * 1 :=
        mul_le_mul_of_nonneg_left (le_trans hs (by norm_num)) (by positivity)
      have : (n : ℚ) * s ≤ (n : ℚ) := by linarith
      calc ⌊(n : ℚ) * s⌋ ≤ ⌊(n : ℚ)⌋ := Int.floor_le_floor this
        _ = (n : ℤ) := Int.floor_natCast n
  unfold scaleSide
  omega

/-- Downscale fallback loop (step 1a): `while len(out) > ceil_len and
max(w, h) > MIN_LONG_SIDE:` resize by the fixed clamped factor and
re-encode at the current quality.  The clamp `scale ≤ 0.98` (hypothesis
`hs`) is what makes the loop terminate. -/
def downLoop (O : Ext) (subdef : Option ℕ) (ceil_len q : ℕ) (scale : ℚ)
    (h0 : 0 ≤ scale) (hs : scale ≤ 49 / 50) (img : PImage) (out : Bytes) :
    PImage × Bytes :=
  if hcond : ceil_len < out.len ∧ 960 < max img.w img.h then
    let w' := scaleSide img.w scale
    let h' := scaleSide img.h scale
    let img' := resizeImg O img w' h'
    downLoop O subdef ceil_len q scale h0 hs img'
      (encQ O img' subdef q none true true)
  else (img, out)
termination_by img.w + img.h
decreasing_by
  simp_wf
  simp only [resizeImg]
  rcases hcond with ⟨-, hbig⟩
  rcases max_cases img.w img.h with ⟨hmax, hge⟩ | ⟨hmax, hlt⟩
  · rw [hmax] at hbig
    have hA := scaleSide_le_of_big h0 hs hbig
    have hB := scaleSide_le_succ (n := img.h) hs
    omega
  · rw [hmax] at hbig
    have hA := scaleSide_le_of_big h0 hs hbig
    have hB := scaleSide_le_succ (n := img.w) hs
    omega

/-- Floor pass (step 2): `while len(out) < floor_len and q < 95:
q += 3; out = _enc(q)`. -/
def floorLoop (O : Ext) (img : PImage) (subdef : Option ℕ)
    (floor_len : ℕ) (q : ℕ) (out : Bytes) : ℕ × Bytes :=
  if h : out.len < floor_len ∧ q < 95 then
    floorLoop O img subdef floor_len (q + 3)
      (encQ O img subdef (q + 3) none true true)
  else (q, out)
termination_by 95 - q
decreasing_by simp_wf; omega

/-- initial `q = max(1, min(int(q_start), 95))`. -/
def bandInitQ (q_start : ℕ) : ℕ := max 1 (min q_start 95)

/-- initial RGB normalisation: `if img.mode not in ("RGB",): convert`. -/
def bandImg (O : Ext) (img0 : PImage) : PImage :=
  if img0.mode ≠ PMode.RGB then convertRGB O img0 else img0

/-- `scale = max(0.60, min(0.98, math.sqrt(target_ratio) * 0.98))`. -/
def bandScale (O : Ext) (target_ratio : ℚ) : ℚ :=
  max (3 / 5) (min (49 / 50) (O.fsqrt target_ratio * (49 / 50)))

lemma bandScale_nonneg (O : Ext) (t : ℚ) : 0 ≤ bandScale O t :=
  le_trans (by norm_num) (le_max_left _ _)

lemma bandScale_le (O : Ext) (t : ℚ) : bandScale O t ≤ 49 / 50 :=
  max_le (by norm_num) (min_le_left _ _)

/-- Steps 1 and 1a of `_jpeg_bytes_with_band` (lines 78–99): the ceiling
pass and — when quality headroom is exhausted (`q <= q_floor and q_floor <=
32`) with the size still above the ceiling — the guided downscale.
Returns the working state `(q, img, out)` the floor pass continues from. -/
def bandCeilPhase (O : Ext) (img : PImage) (subsamp_default : Option ℕ)
    (keep_max : Option ℚ) (baseline_len q_floor q : ℕ) (out : Bytes) :
    ℕ × PImage × Bytes :=
  match keep_max with
  | some km =>
    let ceil_len := ratFloorNat (baseline_len * km)
    let c := ceilLoop O img subsamp_default ceil_len q_floor q out
    if ceil_len < c.2.len ∧ c.1 ≤ q_floor ∧ q_floor ≤ 32 then
      let target_ratio : ℚ := (ceil_len : ℚ) / (max 1 c.2.len : ℕ)
      let scale := bandScale O target_ratio
      let d := downLoop O subsamp_default ceil_len c.1 scale
        (bandScale_nonneg O target_ratio) (bandScale_le O target_ratio)
        img c.2
      (c.1, d.1, d.2)
    else (c.1, img, c.2)
  | none => (q, img, out)

/-- Step 2 of `_jpeg_bytes_with_band` (lines 102–123): the floor pass with
its two last-resort fattening re-encodes, continuing on the (possibly
downscaled) working image left by the ceiling phase. -/
def bandFloorPhase (O : Ext) (subsamp_default : Option ℕ)
    (keep_min : Option ℚ) (baseline_len : ℕ) :
    ℕ × PImage × Bytes → Bytes × Bool
  | (q, img, out) =>
    match keep_min with
    | some km =>
      let floor_len := ratFloorNat (baseline_len * km)
      let f := floorLoop O img subsamp_default floor_len q out
      let out2 := f.2
      let out3 :=
        if out2.len < floor_len then
          let o2 := encQ O img subsamp_default 100 (some 0) true true
          let outA := if out2.len < o2.len then o2 else out2
          if outA.len < floor_len then
            let o3 := encQ O img subsamp_default 100 (some 0) false false
            if outA.len < o3.len then o3 else outA
          else outA
        else out2
      (out3, decide (floor_len ≤ out3.len))
    | none => (out, true)

/-- `_jpeg_bytes_with_band(img, q_start, keep_min, keep_max, baseline_len,
q_floor=40, subsamp_default=None) -> (jpeg_bytes, reached_floor)`:
normalise to RGB, clamp the starting quality, take the initial encode, run
the ceiling phase (with downscale fallback) and then the floor phase on
its resulting working state. -/
def _jpeg_bytes_with_band (O : Ext) (img0 : PImage) (q_start : ℕ)
    (keep_min keep_max : Option ℚ) (baseline_len : ℕ)
    (q_floor : ℕ := 40) (subsamp_default : Option ℕ := none) :
    Bytes × Bool :=
  let img := bandImg O img0
  let q := bandInitQ q_start
  let out := encQ O img subsamp_default q none true true
  bandFloorPhase O subsamp_default keep_min baseline_len
    (bandCeilPhase O img subsamp_default keep_max baseline_len q_floor q out)

/-! ## Image→PDF conversion and estimators (pdf_ops.py lines 307–369, 445–504) -/

/-- The lossless single-page PDF of the original image, with the padding
fallback of the source: `try: pdf_orig = img2pdf.convert(file_bytes)
except Exception: pdf_orig = file_bytes` (lines 311–314 and 449–452). -/
def imagePdfOrig (O : Ext) (file_bytes : Bytes) : Bytes :=
  match O.img2pdf [file_bytes] with
  | Except.ok p => p
  | Except.error _ => file_bytes

/-- Per-level band parameters `(q_start, keep_max, keep_min, max_side)` from
the `if level == "min" / "med" / "max"` chains (identical at lines 327–343
and 462–478); `none` for the final `else`.  The Python float literals
0.75/0.65/0.48/0.30 are idealised as exact rationals. -/
def bandLevelParams (level : String) : Option (ℕ × Option ℚ × Option ℚ × Option ℕ) :=
  if level = "min" then some (88, some (3 / 4), some (13 / 20), none)
  else if level = "med" then some (75, some (12 / 25), some (3 / 10), some 1280)
  else if level = "max" then some (65, some (3 / 10), none, some 2000)
  else none

/-- `q_floor = 45 if level == "min" else (30 if level == "med" else 24)`. -/
def bandQFloor (level : String) : ℕ :=
  if level = "min" then 45 else if level = "med" then 30 else 24

/-- `subsamp = None if level == "min" else 2` (4:2:0 for med/max). -/
def bandSubsamp (level : String) : Option ℕ :=
  if level = "min" then none else some 2

/-- The pre-band downscale: `scale = min(max_side / max(w, h), 1.0);
if scale < 1.0: im = im.resize((int(w*scale), int(h*scale)), LANCZOS)`. -/
def downscaleMaxSide (O : Ext) (im : PImage) : Option ℕ → PImage
  | none => im
  | some ms =>
    let scale : ℚ := min ((ms : ℚ) / (max im.w im.h : ℕ)) 1
    if scale < 1 then
      resizeImg O im (Int.toNat ⌊(im.w : ℚ) * scale⌋) (Int.toNat ⌊(im.h : ℚ) * scale⌋)
    else im

/-- The shared tail of both image paths: wrap the candidate JPEG in a PDF
with the padding fallback (`except: pdf_out = jpg_bytes + b"\x00"*1024`). -/
def wrapJpeg (O : Ext) (jpg : Bytes) : Bytes :=
  match O.img2pdf [jpg] with
  | Except.ok p => p
  | Except.error _ => pad1024 jpg

/-- `image_to_pdf_bytes(file_bytes, level)` (lines 445–504): converts an
image to a one-page PDF aiming at the size band against the lossless
baseline, with the final guard-rail `pdf_out if len(pdf_out) < base_len
else pdf_orig`.  `Image.open` can raise (unreadable image bytes), which in
Python propagates out of this function; hence the `Except` result. -/
def image_to_pdf_bytes (O : Ext) (file_bytes : Bytes) (level : String) :
    Except Unit Bytes := do
  let pdf_orig := imagePdfOrig O file_bytes
  let base_len := pdf_orig.len
  if level = "" ∨ level = "none" then
    return pdf_orig
  else do
    let im ← O.imageOpen file_bytes
    let im := if im.mode = PMode.RGBA ∨ im.mode = PMode.P then convertRGB O im else im
    match bandLevelParams level with
    | none => return pdf_orig
    | some (q_start, keep_max, keep_min, max_side) => do
      let im := downscaleMaxSide O im max_side
      let r := _jpeg_bytes_with_band O im q_start keep_min keep_max base_len
        (bandQFloor level) (bandSubsamp level)
      let pdf_out := wrapJpeg O r.1
      return (if pdf_out.len < base_len then pdf_out else pdf_orig)

/-- `estimate_image_pdf_size(img_bytes, level)` (lines 307–369): identical
pipeline but keyed off `LEVELS[...].mode` for the `none` short-circuit and
returning a length, `len(pdf_out) if len(pdf_out) < base_len else
base_len`. -/
def estimate_image_pdf_size (O : Ext) (img_bytes : Bytes) (level : String) :
    Except Unit ℕ := do
  let base_len := (imagePdfOrig O img_bytes).len
  let params := LEVELS level
  if params.mode = "none" then
    return base_len
  else do
    let im ← O.imageOpen img_bytes
    let im := if im.mode = PMode.RGBA ∨ im.mode = PMode.P then convertRGB O im else im
    match bandLevelParams level with
    | none => return base_len
    | some (q_start, keep_max, keep_min, max_side) => do
      let im := downscaleMaxSide O im max_side
      let r := _jpeg_bytes_with_band O im q_start keep_min keep_max base_len
        (bandQFloor level) (bandSubsamp level)
      let pdf_out := wrapJpeg O r.1
      return (if pdf_out.len < base_len then pdf_out.len else base_len)

/-! ## Per-page estimator (pdf_ops.py lines 239–304) -/

/-- `estimate_pdf_page_size(pdf_bytes, page_idx, level)`.  The document is
opened *before* the page-index range check, so unreadable bytes raise (and
the caller `Api.estimate` only catches at the top level), while an
out-of-range index returns 0.  Both `all`-mode and the rasterising
`smart`-mode branch cap the DPI via `_cap_dpi_for_page`. -/
def estimate_pdf_page_size (O : Ext) (pdf_bytes : Bytes) (page_idx : ℤ)
    (level : String) : Except Unit ℕ := do
  let params := LEVELS level
  let doc ← O.openPdf pdf_bytes
  if page_idx < 0 ∨ (doc.pages.length : ℤ) ≤ page_idx then
    return 0
  else do
    let pg ← getOrThrow (doc.pages.get? page_idx.toNat)
    if params.mode = "none" then do
      let _ ← O.insertPdf doc page_idx.toNat
      return (O.writeDoc [OutPage.copied pg pg.rotation]).len
    else if params.mode = "all" then do
      let dpi_eff := _cap_dpi_for_page pg.w pg.h params.dpi
      let jb ← O.pixJpeg pg dpi_eff params.jpg_q
      return (wrapJpeg O jb).len
    else if params.mode = "smart" then
      if _is_image_only O pg then do
        let dpi_eff := _cap_dpi_for_page pg.w pg.h params.dpi
        let jb ← O.pixJpeg pg dpi_eff params.jpg_q
        return (wrapJpeg O jb).len
      else do
        let _ ← O.insertPdf doc page_idx.toNat
        return (O.writeDoc [OutPage.copied pg pg.rotation]).len
    else
      return 0

/-! ## Real compressor (pdf_ops.py lines 376–442) -/

/-- `compress_pdf(pdf_bytes, level)`: rasterise all pages (`all`) or only
image-only pages (`smart`), guarded by `out_bytes if len(out_bytes) <
len(pdf_bytes) else pdf_bytes`, with each branch wrapped in
`try/except: return pdf_bytes`.  Note the pixmaps here are taken with
`get_pixmap(dpi=dpi)` — the level's raw DPI, *not* `_cap_dpi_for_page`. -/
def compress_pdf (O : Ext) (pdf_bytes : Bytes) (level : Option String) : Bytes :=
  match level with
  | none => pdf_bytes
  | some lv =>
    if lv = "" ∨ lv = "none" then pdf_bytes
    else
      let params := LEVELS lv
      if params.mode = "all" then
        pyTryOr pdf_bytes (do
          let src ← O.openPdf pdf_bytes
          let jpgs ← src.pages.mapM (fun pg => O.pixJpeg pg params.dpi params.jpg_q)
          let out ← O.img2pdf jpgs
          return (if out.len < pdf_bytes.len then out else pdf_bytes))
      else if params.mode = "smart" then
        pyTryOr pdf_bytes (do
          let src ← O.openPdf pdf_bytes
          let ps ← (List.enum src.pages).mapM (fun ipg =>
            if _is_image_only O ipg.2 then do
              let jb ← O.pixJpeg ipg.2 params.dpi params.jpg_q
              return OutPage.raster ipg.2.w ipg.2.h jb 0
            else do
              let _ ← O.insertPdf src ipg.1
              return OutPage.copied ipg.2 ipg.2.rotation)
          let out := O.writeDoc ps
          return (if out.len < pdf_bytes.len then out else pdf_bytes))
      else pdf_bytes

/-! ## Document assembler `merge_pages` (pdf_ops.py lines 554–657)

One plan entry is `(name, data, kind, page_idx, level)`.  Rotation values
arrive from the caller and may be unparseable as integers, hence
`Option ℤ`. -/

/-- A `pages_flat` entry `(name, data, kind, page_idx, level)`. -/
abbrev Entry := String × Bytes × String × ℤ × String

/-- `rotations = rotation_seq or [0] * len(pages_flat)` — note a `None`
*and* an empty list both fall back to the zero list (Python truthiness). -/
def rotationsOf (seq : Option (List (Option ℤ))) (n : ℕ) : List (Option ℤ) :=
  match seq with
  | none => List.replicate n (some 0)
  | some l => if l.isEmpty then List.replicate n (some 0) else l

/-- `try: angle = int(rotations[pos]) % 360 except Exception: angle = 0`:
an out-of-range position (IndexError) or an unparseable value both give 0.
`Int.emod` agrees with Python `%` for the positive modulus 360. -/
def angleAt (rots : List (Option ℤ)) (pos : ℕ) : ℤ :=
  match rots.get? pos with
  | some (some n) => n % 360
  | _ => 0

/-- Rotation stored on a page copied with `insert_pdf`: `set_rotation` is
only called under `if angle:`, so a zero angle leaves the source page's
own `/Rotate` in place. -/
def rotStored (angle : ℤ) (pg : FPage) : ℤ :=
  if angle ≠ 0 then angle else pg.rotation

/-- The inner `try` of the image branch (lines 585–592): open the one-page
PDF, insert its page 0, apply the rotation; `except Exception: pass`. -/
def imageInsert (O : Ext) (one_pdf : Bytes) (angle : ℤ) :
    Except Unit (List OutPage) := do
  let tmp ← O.openPdf one_pdf
  let pg ← getOrThrow (tmp.pages.get? 0)
  let _ ← O.insertPdf tmp 0
  return [OutPage.copied pg (rotStored angle pg)]

/-- The big `try` of the PDF branch (lines 596–645): open, clamp the page
index, copy or rasterise according to the level, apply the rotation.  A
fresh rasterised page starts with `/Rotate 0`, so `if angle:` leaves 0
there when the angle is 0. -/
def pdfBody (O : Ext) (data : Bytes) (page_idx : ℤ) (level : String)
    (angle : ℤ) : Except Unit (List OutPage) := do
  let src ← O.openPdf data
  let pidx := (max 0 (min page_idx ((src.pages.length : ℤ) - 1))).toNat
  let pg ← getOrThrow (src.pages.get? pidx)
  if level = "" ∨ level = "none" then do
    let _ ← O.insertPdf src pidx
    return [OutPage.copied pg (rotStored angle pg)]
  else
    let params := LEVELS level
    if params.mode = "smart" then
      if _is_image_only O pg then do
        let jb ← O.pixJpeg pg params.dpi params.jpg_q
        return [OutPage.raster pg.w pg.h jb (if angle ≠ 0 then angle else 0)]
      else do
        let _ ← O.insertPdf src pidx
        return [OutPage.copied pg (rotStored angle pg)]
    else if params.mode = "all" then do
      let jb ← O.pixJpeg pg params.dpi params.jpg_q
      return [OutPage.raster pg.w pg.h jb (if angle ≠ 0 then angle else 0)]
    else do
      let _ ← O.insertPdf src pidx
      return [OutPage.copied pg (rotStored angle pg)]

/-- One iteration of the `merge_pages` loop for the entry at position
`pos`.  The image branch first runs `image_to_pdf_bytes(data, level)` with
the fallback `except: image_to_pdf_bytes(data, "none")` — an exception
from the *fallback itself* would propagate (it never fires: the `"none"`
path is total, see `image_to_pdf_bytes_none`).  Everything after is inside
per-entry `try` blocks, modelled by `pyTryOr []`. -/
def entryStep (O : Ext) (rots : List (Option ℤ)) (pos : ℕ) :
    Entry → Except Unit (List OutPage)
  | (_, data, kind, page_idx, level) =>
    let angle := angleAt rots pos
    if kind = "image" then do
      let one_pdf ←
        match image_to_pdf_bytes O data level with
        | Except.ok p => Except.ok p
        | Except.error _ => image_to_pdf_bytes O data ("none")
      return pyTryOr [] (imageInsert O one_pdf angle)
    else
      return pyTryOr [] (pdfBody O data page_idx level angle)

/-- The loop of `merge_pages` over the remaining entries, `pos` being the
position of the first of them in the full plan. -/
def mergeLoop (O : Ext) (rots : List (Option ℤ)) :
    List Entry → ℕ → Except Unit (List OutPage)
  | [], _ => Except.ok []
  | e :: es, pos => do
    let ps ← entryStep O rots pos e
    let rest ← mergeLoop O rots es (pos + 1)
    return ps ++ rest

/-- `merge_pages(pages_flat, rotation_seq=None) -> bytes`. -/
def merge_pages (O : Ext) (pages_flat : List Entry)
    (rotation_seq : Option (List (Option ℤ)) := none) : Except Unit Bytes := do
  let rotations := rotationsOf rotation_seq pages_flat.length
  let ps ← mergeLoop O rotations pages_flat 0
  return O.writeDoc ps

/-- Total description of what one entry contributes to the merged output:
the pages of `entryStep` whenever it returns, nothing being lost.  Used to
state failure isolation (C3). -/
def entryPageT (O : Ext) (rots : List (Option ℤ)) (pos : ℕ) (e : Entry) :
    List OutPage :=
  match e with
  | (_, data, kind, page_idx, level) =>
    if kind = "image" then
      let one_pdf :=
        match image_to_pdf_bytes O data level with
        | Except.ok p => p
        | Except.error _ => imagePdfOrig O data
      pyTryOr [] (imageInsert O one_pdf (angleAt rots pos))
    else
      pyTryOr [] (pdfBody O data page_idx level (angleAt rots pos))

/-! ## The bridge `Api.estimate` (bridge.py lines 133–170) -/

/-- An uploaded source file held by the `Api` session object. -/
structure SrcFile where
  name : String
  mime : String
  data : Bytes
  deriving DecidableEq, Repr

/-- Python `str.lower()`, modelled as per-character lowering (so terms
evaluate in the kernel). -/
def strLower (s : String) : String := ⟨s.data.map Char.toLower⟩

/-- Python `str.endswith(suf)`, modelled as a list-suffix test. -/
def strEndsWith (s suf : String) : Bool := suf.data.isSuffixOf s.data

/-- `is_pdf = sf.mime.lower().endswith('/pdf') or
sf.name.lower().endswith('.pdf')`. -/
def isPdfFile (sf : SrcFile) : Bool :=
  strEndsWith (strLower sf.mime) ("/pdf") || strEndsWith (strLower sf.name) (".pdf")

/-- The estimate payload `{order, keep, level_page, level_global}`
(the `rotate` key is unused by `estimate`). -/
structure Payload where
  order : List (ℕ × ℤ)
  keep : List Bool
  level_page : List String
  level_global : String
  deriving DecidableEq, Repr

/-- `lv in ('none','min','med','max')`. -/
def validLevel (s : String) : Bool :=
  s = "none" || s = "min" || s = "med" || s = "max"

/-- `level_of(idx)` from `Api.estimate` / `Api.process`. -/
def level_of (lvl_pg : List String) (lvl_gl : String) (idx : ℕ) : String :=
  let lv : Option String :=
    match lvl_pg.get? idx with
    | some s => if validLevel s then some s else none
    | none => none
  match lv with
  | some s => s
  | none => if validLevel lvl_gl then lvl_gl else "none"

/-- The accumulation loop of `Api.estimate` over `enumerate(order)`:
`keep[i]` and `self.src_files[src_id]` raise on bad indices, and any
exception escaping a per-page estimator aborts the whole loop (it is only
caught by the method's top-level `try`, which reports a structured error
instead of totals). -/
def estimateLoop (O : Ext) (files : List SrcFile) (p : Payload) :
    List (ℕ × ℕ × ℤ) → ℕ → ℕ → Except Unit (ℕ × ℕ)
  | [], before, after => Except.ok (before, after)
  | (i, src_id, page_index) :: rest, before, after => do
    let k ← getOrThrow (p.keep.get? i)
    if !k then
      estimateLoop O files p rest before after
    else do
      let sf ← getOrThrow (files.get? src_id)
      if isPdfFile sf then do
        let b ← estimate_pdf_page_size O sf.data page_index ("none")
        let a ← estimate_pdf_page_size O sf.data page_index
          (level_of p.level_page p.level_global i)
        estimateLoop O files p rest (before + b) (after + a)
      else do
        let b ← estimate_image_pdf_size O sf.data ("none")
        let a ← estimate_image_pdf_size O sf.data
          (level_of p.level_page p.level_global i)
        estimateLoop O files p rest (before + b) (after + a)

/-- Enumerated order list, mirroring `enumerate(order)`. -/
def enumOrder (order : List (ℕ × ℤ)) : List (ℕ × ℕ × ℤ) :=
  (List.enum order).map (fun x => (x.1, x.2.1, x.2.2))

/-- Body of `Api.estimate` as a function of the session's source files:
returns `(total_before_bytes, total_after_bytes)` or the structured error
produced by the method's top-level `except`. -/
def estimateCore (O : Ext) (files : List SrcFile) (p : Payload) :
    Except Unit (ℕ × ℕ) :=
  estimateLoop O files p (enumOrder p.order) 0 0

/-- One logical page reference of the session (`PageRef`). -/
structure PageRef where
  src_id : ℕ
  page_index : ℕ
  is_pdf : Bool
  deriving DecidableEq, Repr

/-- The mutable state of the `Api` bridge object. -/
structure ApiState where
  src_files : List SrcFile
  pages : List PageRef
  page_images_cache : List ((ℕ × ℕ) × Bytes)
  deriving DecidableEq, Repr

/-- `Api.estimate(payload)`, with the object state threaded explicitly.
The method body only *reads* `self.src_files` (no attribute assignment
anywhere in it), so the state comes back unchanged. -/
def Api.estimate (O : Ext) (st : ApiState) (p : Payload) :
    Except Unit (ℕ × ℕ) × ApiState :=
  (estimateCore O st.src_files p, st)

/-! ## Helper lemmas -/

lemma except_bind_ok {α β : Type} (x : Except Unit α) (f : α → Except Unit β)
    (v : β) :
    (x >>= f) = Except.ok v ↔ ∃ a, x = Except.ok a ∧ f a = Except.ok v := by
  cases x <;> simp [Bind.bind, Except.bind]

lemma pyTryOr_of_ok {α : Type} {fb : α} {x : Except Unit α} {v : α}
    (h : x = Except.ok v) : pyTryOr fb x = v := by
  subst h; rfl

/-- The `level="none"` path of `image_to_pdf_bytes` never raises: the only
fallible call (`img2pdf.convert`) is inside its own `try/except`, and the
function returns before `Image.open`. -/
lemma image_to_pdf_bytes_none (O : Ext) (b : Bytes) :
    image_to_pdf_bytes O b ("none") = Except.ok (imagePdfOrig O b) := rfl

/-- One loop iteration of `merge_pages` never lets an exception escape:
the PDF branch is wrapped in `try/except: continue`, the image branch's
insertion in `try/except: pass`, and the image fallback conversion is
total. -/
lemma entryStep_eq (O : Ext) (rots : List (Option ℤ)) (pos : ℕ) (e : Entry) :
    entryStep O rots pos e = Except.ok (entryPageT O rots pos e) := by
  obtain ⟨name, data, kind, page_idx, level⟩ := e
  by_cases hk : kind = "image"
  · simp only [entryStep, entryPageT, hk, if_pos rfl]
    cases h : image_to_pdf_bytes O data level with
    | ok p => simp [h, Bind.bind, Except.bind, Pure.pure, Except.pure]
    | error err =>
      simp [h, Bind.bind, Except.bind, image_to_pdf_bytes_none, Pure.pure,
        Except.pure]
  · simp [entryStep, entryPageT, hk, Bind.bind, Except.bind, Pure.pure,
      Except.pure]

/-- Total description of the whole merge loop: the concatenation, in caller
order, of each entry's (possibly empty) contribution. -/
def keptPages (O : Ext) (rots : List (Option ℤ)) :
    List Entry → ℕ → List OutPage
  | [], _ => []
  | e :: es, pos => entryPageT O rots pos e ++ keptPages O rots es (pos + 1)

lemma mergeLoop_eq (O : Ext) (rots : List (Option ℤ)) (l : List Entry)
    (pos : ℕ) :
    mergeLoop O rots l pos = Except.ok (keptPages O rots l pos) := by
  induction l generalizing pos with
  | nil => rfl
  | cons e es ih =>
    simp [mergeLoop, keptPages, entryStep_eq, ih, Bind.bind, Except.bind,
      Pure.pure, Except.pure]

/-- `keptPages` is exactly the ordered `filterMap`-style flattening of the
per-entry contributions over the enumerated plan. -/
lemma keptPages_eq_enumFrom (O : Ext) (rots : List (Option ℤ))
    (l : List Entry) (pos : ℕ) :
    keptPages O rots l pos =
      (List.enumFrom pos l).bind (fun pe => entryPageT O rots pe.1 pe.2) := by
  induction l generalizing pos with
  | nil => rfl
  | cons e es ih => simp [keptPages, List.enumFrom_cons, List.cons_bind, ih]

/-! ## Concrete oracles for witnesses and counterexamples -/

/-- Base oracle: every fallible capability fails, every total one is
constant.  Concrete instances override single fields. -/
def Obase : Ext where
  openPdf := fun _ => Except.error ()
  getText := fun _ => Except.error ()
  getDrawings := fun _ => Except.error ()
  pixJpeg := fun _ _ _ => Except.error ()
  insertPdf := fun _ _ => Except.ok ()
  writeDoc := fun _ => ⟨0, 0⟩
  img2pdf := fun _ => Except.error ()
  imageOpen := fun _ => Except.error ()
  rgbTag := fun _ => 0
  resizedTag := fun _ _ _ => 0
  encJ := fun _ _ _ _ _ => ⟨0, 0⟩
  fsqrt := fun _ => 0

/-! ## Claim C3 — failure isolation in `merge_pages` -/

/-- C3: for every plan given to `merge_pages`, the call returns a finalized
document (never an exception): each entry's processing is wrapped so that a
failing entry contributes nothing, and the output is the write of exactly
the non-failing entries' pages, in caller order (the `bind` over the
enumerated plan). -/
theorem C3_failure_isolation (O : Ext) (plan : List Entry)
    (seq : Option (List (Option ℤ))) :
    merge_pages O plan seq =
      Except.ok (O.writeDoc
        ((List.enumFrom 0 plan).bind
          (fun pe => entryPageT O (rotationsOf seq plan.length) pe.1 pe.2))) := by
  simp [merge_pages, mergeLoop_eq, keptPages_eq_enumFrom, Bind.bind,
    Except.bind, Pure.pure, Except.pure]

/-! ## Claim C6 — the raster-only classifier -/

/-- Spec-side predicate: the page yields no extractable text run, where a
failing extraction counts as "absent". -/
def specTextAbsent (O : Ext) (pg : FPage) : Prop :=
  match O.getText pg with
  | Except.ok s => s = ""
  | Except.error _ => True

/-- Spec-side predicate: the page yields no vector drawing primitives,
where a failing extraction counts as "absent". -/
def specDrawingsAbsent (O : Ext) (pg : FPage) : Prop :=
  match O.getDrawings pg with
  | Except.ok l => l = []
  | Except.error _ => True

/-- C6: `_is_image_only` reports raster-only iff the page yields no
extractable text run and no vector drawing primitives, a failed extraction
counting as absent; in particular a page on which both extractions fail is
classified raster-only. -/
theorem C6_classifier (O : Ext) (pg : FPage) :
    _is_image_only O pg = true ↔
      specTextAbsent O pg ∧ specDrawingsAbsent O pg := by
  unfold _is_image_only specTextAbsent specDrawingsAbsent
  cases ht : O.getText pg <;> cases hd : O.getDrawings pg <;>
    simp [List.length_eq_zero]

/-! ## Claim C9 — estimate is pure -/

/-- C9: `Api.estimate` leaves the bridge state unchanged, re-running it on
the resulting state returns the identical byte totals, and the result does
not depend on the session page index or the image cache (the only other
mutable state).  This holds by the translation: the method body reads only
`self.src_files` and assigns no attribute. -/
theorem C9_estimate_pure (O : Ext) (st : ApiState) (p : Payload) :
    (Api.estimate O st p).2 = st ∧
    (Api.estimate O (Api.estimate O st p).2 p).1 = (Api.estimate O st p).1 ∧
    (∀ pages cache,
      (Api.estimate O ⟨st.src_files, pages, cache⟩ p).1 =
        (Api.estimate O st p).1) :=
  ⟨rfl, rfl, fun _ _ => rfl⟩

/-! ## Claim C10 — out-of-range page indices are clamped in `merge_pages` -/

/-- C10: a kept PDF entry of `merge_pages` with an out-of-range (or any)
page index on a non-empty source document has its index clamped into
`[0, page_count-1]`, and (the clamped page being loadable and insertable)
the entry is neither dropped nor does it raise: the nearest valid page is
copied into the output. -/
theorem C10_clamp (O : Ext) (rots : List (Option ℤ)) (pos : ℕ)
    (name : String) (data : Bytes) (idx : ℤ) (level : String) (doc : FDoc)
    (hopen : O.openPdf data = Except.ok doc) (hne : doc.pages ≠ []) :
    (max 0 (min idx ((doc.pages.length : ℤ) - 1))).toNat < doc.pages.length ∧
    (∀ pg, doc.pages.get? (max 0 (min idx ((doc.pages.length : ℤ) - 1))).toNat
        = some pg →
      O.insertPdf doc (max 0 (min idx ((doc.pages.length : ℤ) - 1))).toNat
        = Except.ok () →
      entryStep O rots pos (name, data, "pdf", idx, "none") =
        Except.ok [OutPage.copied pg (rotStored (angleAt rots pos) pg)]) := by
  have hlen : doc.pages.length ≠ 0 := fun h => hne (List.eq_nil_of_length_eq_zero h)
  constructor
  · omega
  · intro pg hpg hins
    rw [entryStep_eq]
    have hbody : pdfBody O data idx ("none") (angleAt rots pos) =
        Except.ok [OutPage.copied pg (rotStored (angleAt rots pos) pg)] := by
      simp only [pdfBody, hopen, Bind.bind, Except.bind, getOrThrow]
      simp only [List.get?_eq_getElem?] at hpg
      simp [hpg, hins, Pure.pure, Except.pure]
    simp [entryPageT, hbody, pyTryOr]

/-- Concrete one-page document for the C10 witness. -/
def pg10 : FPage := ⟨100, 100, 0, 0⟩

def doc10 : FDoc := ⟨[pg10]⟩

def O10 : Ext := { Obase with openPdf := fun _ => Except.ok doc10 }

/-- C10 witness: page index 5 on a 1-page document is clamped to 0 and the
page is still copied into the output. -/
theorem C10_clamp_witness :
    (max 0 (min (5 : ℤ) ((doc10.pages.length : ℤ) - 1))).toNat
        < doc10.pages.length ∧
    entryStep O10 [] 0 ("a", ⟨7, 9⟩, "pdf", 5, "none") =
      Except.ok [OutPage.copied pg10 (rotStored (angleAt [] 0) pg10)] := by
  have h := C10_clamp O10 [] 0 "a" ⟨7, 9⟩ 5 "none" doc10 rfl
    (by simp [doc10, pg10])
  exact ⟨h.1, h.2 pg10 rfl rfl⟩

/-! ## Claim C2 — the size guard-rail -/

lemma guard_if_le (x y : Bytes) : (if x.len < y.len then x else y).len ≤ y.len := by
  split
  · next h => exact le_of_lt h
  · exact le_refl _

lemma pyTryOr_len_le (b : Bytes) (x : Except Unit Bytes)
    (hx : ∀ v, x = Except.ok v → v.len ≤ b.len) :
    (pyTryOr b x).len ≤ b.len := by
  cases h : x with
  | ok v => simp only [pyTryOr]; exact hx v h
  | error e => simp [pyTryOr]

/-- C2 (amended): the guard-rail holds on the image conversion path — any
result of `image_to_pdf_bytes` is no larger than the level-`none` result
(the lossless baseline document) — and at whole-document level in
`compress_pdf` (output never larger than input).  The rasterising branches
of `merge_pages` carry no such guard (see the counterexample). -/
theorem C2_guard_rails :
    (∀ (O : Ext) (b : Bytes) (level : String) (r : Bytes),
      image_to_pdf_bytes O b level = Except.ok r →
      r.len ≤ (imagePdfOrig O b).len) ∧
    (∀ (O : Ext) (b : Bytes) (level : Option String),
      (compress_pdf O b level).len ≤ b.len) := by
  constructor
  · intro O b level r h
    unfold image_to_pdf_bytes at h
    by_cases hl : level = "" ∨ level = "none"
    · rw [if_pos hl] at h
      simp only [Pure.pure, Except.pure, Except.ok.injEq] at h
      subst h; exact le_refl _
    · rw [if_neg hl] at h
      rw [except_bind_ok] at h
      obtain ⟨im, -, h⟩ := h
      rcases hbp : bandLevelParams level with - | ⟨q_start, keep_max, keep_min, max_side⟩ <;>
        rw [hbp] at h <;>
        simp only [Pure.pure, Except.pure, Except.ok.injEq] at h
      · subst h; exact le_refl _
      · subst h; exact guard_if_le _ _
  · intro O b level
    cases level with
    | none => exact le_refl _
    | some lv =>
      simp only [compress_pdf]
      by_cases h1 : lv = "" ∨ lv = "none"
      · rw [if_pos h1]
      · rw [if_neg h1]
        by_cases h2 : (LEVELS lv).mode = "all"
        · rw [if_pos h2]
          apply pyTryOr_len_le
          intro v hv
          rw [except_bind_ok] at hv; obtain ⟨src, -, hv⟩ := hv
          rw [except_bind_ok] at hv; obtain ⟨jpgs, -, hv⟩ := hv
          rw [except_bind_ok] at hv; obtain ⟨out, -, hv⟩ := hv
          simp only [Pure.pure, Except.pure, Except.ok.injEq] at hv
          subst hv
          exact guard_if_le _ _
        · rw [if_neg h2]
          by_cases h3 : (LEVELS lv).mode = "smart"
          · rw [if_pos h3]
            apply pyTryOr_len_le
            intro v hv
            rw [except_bind_ok] at hv; obtain ⟨src, -, hv⟩ := hv
            rw [except_bind_ok] at hv; obtain ⟨ps, -, hv⟩ := hv
            simp only [Pure.pure, Except.pure, Except.ok.injEq] at hv
            subst hv
            exact guard_if_le _ _
          · rw [if_neg h3]

/-- C2 witness: a concrete image run through level `min` stays within the
lossless baseline, and a concrete `compress_pdf` run never exceeds its
input. -/
theorem C2_guard_rails_witness :
    Bytes.len ⟨2, 100⟩ ≤ (imagePdfOrig Obase ⟨2, 100⟩).len ∧
    (compress_pdf Obase ⟨2, 100⟩ (some "med")).len ≤ Bytes.len ⟨2, 100⟩ :=
  ⟨C2_guard_rails.1 Obase ⟨2, 100⟩ ("none") ⟨2, 100⟩ rfl,
   C2_guard_rails.2 Obase ⟨2, 100⟩ (some "med")⟩

/-- Single raster-style page used by the C2 counterexample. -/
def pgC2 : FPage := ⟨100, 100, 0, 1⟩

/-- Oracle for the C2 counterexample: the serialized document is *larger*
when the page was rasterised (5000 bytes) than when it was copied verbatim
(100 bytes) — nothing in `merge_pages` prevents this. -/
def OC2 : Ext :=
  { Obase with
    openPdf := fun _ => Except.ok ⟨[pgC2]⟩
    pixJpeg := fun _ _ _ => Except.ok ⟨5, 50⟩
    writeDoc := fun ps =>
      match ps with
      | [OutPage.copied _ _] => ⟨8, 100⟩
      | [OutPage.raster _ _ _ _] => ⟨9, 5000⟩
      | _ => ⟨0, 0⟩ }

/-- C2 counterexample: for the same PDF page, the `merge_pages` output at
level `med` (5000 bytes) is strictly larger than at level `none`
(100 bytes): the per-page rasterising branch of `merge_pages` has no
fall-back to the untransformed copy. -/
theorem C2_counterexample :
    Except.map Bytes.len
        (merge_pages OC2 [("a", ⟨1, 999⟩, "pdf", 0, "med")] (some [some 0]))
      = Except.ok 5000 ∧
    Except.map Bytes.len
        (merge_pages OC2 [("a", ⟨1, 999⟩, "pdf", 0, "none")] (some [some 0]))
      = Except.ok 100 ∧
    ¬ (5000 : ℕ) ≤ 100 := by
  refine ⟨rfl, rfl, by norm_num⟩

/-! ## Claim C7 — the image compression baseline -/

/-- C7 (amended): whenever the lossless single-page conversion of the
original image succeeds, it is the baseline: `imagePdfOrig` (the value both
`image_to_pdf_bytes` and `estimate_image_pdf_size` measure the band and the
guard-rail against, and return for level `none`) is exactly the converted
document, and the baseline length is its length. -/
theorem C7_baseline (O : Ext) (b p : Bytes)
    (h : O.img2pdf [b] = Except.ok p) :
    imagePdfOrig O b = p ∧
    image_to_pdf_bytes O b ("none") = Except.ok p ∧
    estimate_image_pdf_size O b ("none") = Except.ok p.len := by
  have h1 : imagePdfOrig O b = p := by simp [imagePdfOrig, h]
  refine ⟨h1, ?_, ?_⟩
  · rw [image_to_pdf_bytes_none, h1]
  · simp only [estimate_image_pdf_size, h1]
    rfl

/-- Oracle whose lossless conversion succeeds with a 77-byte document. -/
def O7 : Ext := { Obase with img2pdf := fun _ => Except.ok ⟨3, 77⟩ }

/-- C7 witness: with a working converter, a 10-byte raw image gets the
77-byte converted document as baseline. -/
theorem C7_baseline_witness :
    imagePdfOrig O7 ⟨2, 10⟩ = ⟨3, 77⟩ ∧
    image_to_pdf_bytes O7 ⟨2, 10⟩ ("none") = Except.ok ⟨3, 77⟩ ∧
    estimate_image_pdf_size O7 ⟨2, 10⟩ ("none") = Except.ok 77 :=
  C7_baseline O7 ⟨2, 10⟩ ⟨3, 77⟩ rfl

/-- C7 counterexample: when `img2pdf.convert` raises (`Obase` fails all
conversions), the baseline falls back to the raw file bytes: the level
`none` output *is* the raw 7-byte input and the baseline length *is* the
raw file byte length — contradicting "never the raw file byte length". -/
theorem C7_counterexample :
    imagePdfOrig Obase ⟨2, 7⟩ = ⟨2, 7⟩ ∧
    image_to_pdf_bytes Obase ⟨2, 7⟩ ("none") = Except.ok ⟨2, 7⟩ ∧
    estimate_image_pdf_size Obase ⟨2, 7⟩ ("none") = Except.ok 7 :=
  ⟨rfl, rfl, rfl⟩

/-! ## Claim C8 — rotation normalization in `merge_pages` -/

lemma imageInsert_rot (O : Ext) (one_pdf : Bytes) (angle : ℤ)
    (ps : List OutPage) (h : imageInsert O one_pdf angle = Except.ok ps) :
    ∀ p ∈ ps, angle ≠ 0 → p.rot = angle := by
  unfold imageInsert at h
  rw [except_bind_ok] at h; obtain ⟨tmp, -, h⟩ := h
  rw [except_bind_ok] at h; obtain ⟨pg, -, h⟩ := h
  rw [except_bind_ok] at h; obtain ⟨u, -, h⟩ := h
  simp only [Pure.pure, Except.pure, Except.ok.injEq] at h
  subst h
  intro p hp ha
  simp only [List.mem_singleton] at hp
  subst hp
  simp [OutPage.rot, rotStored, ha]

lemma pdfBody_rot (O : Ext) (data : Bytes) (page_idx : ℤ) (level : String)
    (angle : ℤ) (ps : List OutPage)
    (h : pdfBody O data page_idx level angle = Except.ok ps) :
    ∀ p ∈ ps, angle ≠ 0 → p.rot = angle := by
  intro p hp ha
  unfold pdfBody at h
  rw [except_bind_ok] at h; obtain ⟨src, -, h⟩ := h
  rw [except_bind_ok] at h; obtain ⟨pg, -, h⟩ := h
  simp only [rotStored, if_pos ha] at h
  split at h <;> [skip; (split at h <;> [(split at h <;> [skip; skip]); (split at h <;> [skip; skip])])] <;>
    (rw [except_bind_ok] at h; obtain ⟨a, -, h⟩ := h;
     simp only [Pure.pure, Except.pure, Except.ok.injEq] at h;
     subst h;
     simp only [List.mem_singleton] at hp;
     subst hp;
     rfl)

/-- C8 (amended): the angle applied by `merge_pages` is `int(value) % 360`
— an unparseable or missing value yields 0, never an exception — and every
page produced by an entry whose *normalized* angle is nonzero is stored
with exactly that angle.  When the normalized angle is 0, `set_rotation`
is skipped (`if angle:`), so a copied page keeps its source rotation
instead (see the counterexample). -/
theorem C8_rotation :
    (∀ (rots : List (Option ℤ)) (pos : ℕ),
      rots.get? pos = some none ∨ rots.get? pos = none →
      angleAt rots pos = 0) ∧
    (∀ (rots : List (Option ℤ)) (pos : ℕ) (n : ℤ),
      rots.get? pos = some (some n) → angleAt rots pos = n % 360) ∧
    (∀ (O : Ext) (rots : List (Option ℤ)) (pos : ℕ) (e : Entry)
        (ps : List OutPage) (p : OutPage),
      entryStep O rots pos e = Except.ok ps → p ∈ ps →
      angleAt rots pos ≠ 0 → p.rot = angleAt rots pos) := by
  refine ⟨?_, ?_, ?_⟩
  · intro rots pos h
    rcases h with h | h <;>
      (simp only [List.get?_eq_getElem?] at h; simp [angleAt, h])
  · intro rots pos n h
    simp only [List.get?_eq_getElem?] at h
    simp [angleAt, h]
  · intro O rots pos e ps p hstep hp ha
    rw [entryStep_eq] at hstep
    simp only [Except.ok.injEq] at hstep
    subst hstep
    obtain ⟨name, data, kind, page_idx, level⟩ := e
    simp only [entryPageT] at hp
    split at hp
    · rcases hbody : imageInsert O
          (match image_to_pdf_bytes O data level with
            | Except.ok p => p
            | Except.error _ => imagePdfOrig O data) (angleAt rots pos) with
        err | v
      · rw [hbody] at hp; simp [pyTryOr] at hp
      · rw [hbody] at hp; simp only [pyTryOr] at hp
        exact imageInsert_rot O _ _ v hbody p hp ha
    · rcases hbody : pdfBody O data page_idx level (angleAt rots pos) with
        err | v
      · rw [hbody] at hp; simp [pyTryOr] at hp
      · rw [hbody] at hp; simp only [pyTryOr] at hp
        exact pdfBody_rot O _ _ _ _ v hbody p hp ha

/-- C8 witness: a supplied rotation of 450 is normalized to 90 and a
concretely processed entry stores exactly 90 on its page. -/
theorem C8_rotation_witness :
    angleAt [some 450] 0 = 90 ∧
    (OutPage.copied pg10 90).rot = angleAt [some 450] 0 := by
  constructor
  · exact (C8_rotation.2.1 [some 450] 0 450 rfl).trans (by decide)
  · exact C8_rotation.2.2 O10 [some 450] 0 ("a", ⟨7, 9⟩, "pdf", 0, "none")
      [OutPage.copied pg10 90] (OutPage.copied pg10 90) rfl
      (List.mem_singleton.mpr rfl) (by decide)

/-- Source page that already carries `/Rotate 90`. -/
def pg8 : FPage := ⟨100, 100, 90, 0⟩

def O8 : Ext := { Obase with openPdf := fun _ => Except.ok ⟨[pg8]⟩ }

/-- C8 counterexample: a supplied rotation of 360 normalizes to angle 0, so
`set_rotation` is skipped and the copied page keeps its source rotation 90
— the stored rotation is *not* `360 % 360 = 0`. -/
theorem C8_counterexample :
    entryStep O8 [some 360] 0 ("a", ⟨1, 1⟩, "pdf", 0, "none") =
      Except.ok [OutPage.copied pg8 90] ∧
    (90 : ℤ) ≠ 360 % 360 :=
  ⟨rfl, by decide⟩

/-! ## Claim C5 — per-page failure isolation in estimate -/

/-- C5 (amended): for a *readable* source document, an out-of-range page
index makes `estimate_pdf_page_size` return 0 (so the page contributes 0
to the totals and the loop continues); but this isolation does not extend
to unreadable bytes, which raise out of the estimator and abort the whole
`Api.estimate` call (see the counterexample). -/
theorem C5_out_of_range (O : Ext) (b : Bytes) (idx : ℤ) (level : String)
    (doc : FDoc) (hopen : O.openPdf b = Except.ok doc)
    (hrange : idx < 0 ∨ (doc.pages.length : ℤ) ≤ idx) :
    estimate_pdf_page_size O b idx level = Except.ok 0 := by
  unfold estimate_pdf_page_size
  simp only [hopen, Bind.bind, Except.bind]
  rw [if_pos hrange]
  rfl

/-- C5 witness: page index 5 of a readable 1-page document estimates to 0
at every level. -/
theorem C5_out_of_range_witness :
    estimate_pdf_page_size O10 ⟨7, 9⟩ 5 ("med") = Except.ok 0 :=
  C5_out_of_range O10 ⟨7, 9⟩ 5 "med" doc10 rfl (by norm_num [doc10, pg10])

/-- Oracle for the C5 counterexample: bytes tagged 1 open as a readable
one-page document, bytes tagged 2 are unreadable. -/
def O5 : Ext :=
  { Obase with
    openPdf := fun b => if b.tag = 1 then Except.ok doc10 else Except.error ()
    writeDoc := fun _ => ⟨0, 100⟩ }

/-- Session files for the C5 counterexample: one readable PDF, one
unreadable PDF. -/
def files5 : List SrcFile :=
  [⟨"g.pdf", "", ⟨1, 0⟩⟩, ⟨"b.pdf", "", ⟨2, 0⟩⟩]

/-- Payload asking for one page of each file. -/
def payload5 : Payload := ⟨[(0, 0), (1, 0)], [true, true], [], "none"⟩

/-- Same plan with the unreadable page dropped from `keep`. -/
def payload5k : Payload := ⟨[(0, 0), (1, 0)], [true, false], [], "none"⟩

/-- C5 counterexample: with one unreadable source among the kept pages the
whole estimate aborts with the structured error — the readable page's
totals (returned when the unreadable one is excluded, second conjunct) are
*not* returned.  A per-page decode failure is not isolated. -/
theorem C5_counterexample :
    estimateCore O5 files5 payload5 = Except.error () ∧
    estimateCore O5 files5 payload5k = Except.ok (100, 100) :=
  ⟨rfl, rfl⟩

/-! ## Claim C4 — DPI capping -/

/-- C4 (amended): `_cap_dpi_for_page` — which only the *estimators* invoke
— caps the effective DPI so that the requested raster stays within
80,000,000 pixels, except when its hard 72-DPI lower bound takes over.
(`compress_pdf` and `merge_pages` rasterise at the level's raw DPI without
calling it: see the counterexample.) -/
theorem C4_cap_bound (w h : ℚ) (dpi : ℕ) :
    pxQ w h (_cap_dpi_for_page w h dpi) ≤ 80 * 1000000 ∨
    _cap_dpi_for_page w h dpi = 72 := by
  unfold _cap_dpi_for_page
  by_cases hpx : pxQ w h dpi ≤ (80 : ℕ) * 1000000
  · rw [if_pos hpx]
    left
    exact_mod_cast hpx
  · rw [if_neg hpx]
    push_neg at hpx
    set s := Nat.sqrt (Int.toNat ⌊((dpi : ℚ) ^ 2 * ((80 : ℕ) * 1000000)) / pxQ w h dpi⌋) with hs
    rcases le_or_lt s 72 with hle | hgt
    · right
      simp [max_eq_left hle]
    · left
      rw [max_eq_right (le_of_lt hgt)]
      have hpx0 : (0 : ℚ) < pxQ w h dpi := lt_trans (by norm_num) hpx
      have hdpi0 : dpi ≠ 0 := by
        intro h0
        rw [h0] at hpx
        simp [pxQ] at hpx
        norm_num at hpx
      have hX0 : (0 : ℚ) ≤ ((dpi : ℚ) ^ 2 * ((80 : ℕ) * 1000000)) / pxQ w h dpi := by
        positivity
      have hsq : ((s : ℚ)) ^ 2 ≤ ((dpi : ℚ) ^ 2 * ((80 : ℕ) * 1000000)) / pxQ w h dpi := by
        have h1 : (s : ℕ) * s ≤ Int.toNat ⌊((dpi : ℚ) ^ 2 * ((80 : ℕ) * 1000000)) / pxQ w h dpi⌋ := by
          rw [hs]; exact Nat.sqrt_le _
        have h2 : ((Int.toNat ⌊((dpi : ℚ) ^ 2 * ((80 : ℕ) * 1000000)) / pxQ w h dpi⌋ : ℤ) : ℚ)
            ≤ ((dpi : ℚ) ^ 2 * ((80 : ℕ) * 1000000)) / pxQ w h dpi := by
          rw [Int.toNat_of_nonneg (Int.floor_nonneg.mpr hX0)]
          exact Int.floor_le _
        have h3 : ((s : ℚ)) * s ≤ ((Int.toNat ⌊((dpi : ℚ) ^ 2 * ((80 : ℕ) * 1000000)) / pxQ w h dpi⌋ : ℕ) : ℚ) := by
          exact_mod_cast h1
        calc ((s : ℚ)) ^ 2 = (s : ℚ) * s := sq (s : ℚ)
          _ ≤ _ := le_trans h3 (by exact_mod_cast h2)
      have hkey : pxQ w h s = pxQ w h dpi * ((s : ℚ)) ^ 2 / ((dpi : ℚ)) ^ 2 := by
        unfold pxQ
        have : ((dpi : ℚ)) ≠ 0 := Nat.cast_ne_zero.mpr hdpi0
        field_simp
        ring
      rw [hkey]
      calc pxQ w h dpi * ((s : ℚ)) ^ 2 / ((dpi : ℚ)) ^ 2
          ≤ pxQ w h dpi * (((dpi : ℚ) ^ 2 * ((80 : ℕ) * 1000000)) / pxQ w h dpi) / ((dpi : ℚ)) ^ 2 := by
            gcongr
        _ = (((80 : ℕ) : ℚ)) * 1000000 := by
            have h1 : pxQ w h dpi ≠ 0 := ne_of_gt hpx0
            have h2 : ((dpi : ℚ)) ≠ 0 := Nat.cast_ne_zero.mpr hdpi0
            field_simp
        _ ≤ 80 * 1000000 := by norm_num

lemma sqrt8000 : Nat.sqrt 8000 = 89 := by
  have h1 : 89 ≤ Nat.sqrt 8000 := Nat.le_sqrt.mpr (by norm_num)
  have h2 : Nat.sqrt 8000 < 90 := Nat.sqrt_lt.mpr (by norm_num)
  omega

/-- At a 7200×7200pt page and the `med` level's 150 DPI, the cap computes
`max(72, int(150·√(8·10⁷/2.25·10⁸))) = 89`. -/
lemma cap7200 : _cap_dpi_for_page 7200 7200 150 = 89 := by
  unfold _cap_dpi_for_page
  rw [if_neg (by norm_num [pxQ])]
  have harg : (((150 : ℕ) : ℚ) ^ 2 * (((80 : ℕ) : ℚ) * 1000000)) / pxQ 7200 7200 150 = (8000 : ℚ) := by
    norm_num [pxQ]
  rw [harg]
  rw [show ⌊(8000 : ℚ)⌋ = (8000 : ℤ) from by norm_num]
  rw [show Int.toNat (8000 : ℤ) = (8000 : ℕ) from rfl]
  rw [sqrt8000]
  omega

/-- The giant page (7200×7200 points) used for the C4 counterexample. -/
def pg4 : FPage := ⟨7200, 7200, 0, 0⟩

/-- Oracle whose pixmap capability records the DPI it was asked for (the
returned JPEG's tag and length are the DPI argument). -/
def O4 : Ext :=
  { Obase with
    openPdf := fun _ => Except.ok ⟨[pg4]⟩
    pixJpeg := fun _ d _ => Except.ok ⟨d, d⟩
    img2pdf := fun bs =>
      match bs with
      | [b] => Except.ok b
      | _ => Except.error () }

/-- C4 counterexample: on a page whose requested raster at the `med` level
(150 DPI) is 2.25·10⁸ pixels — far above the 80-megapixel cap — the real
compressor `compress_pdf` still asks the pixmap capability for the raw
150 DPI (first conjunct: the DPI-recording oracle shows 150 in the
output), while `_cap_dpi_for_page` would have returned 89, and the
estimator does use the capped 89 (last conjunct). -/
theorem C4_counterexample :
    compress_pdf O4 ⟨0, 1000000000⟩ (some "med") = ⟨150, 150⟩ ∧
    (80 : ℚ) * 1000000 < pxQ 7200 7200 150 ∧
    _cap_dpi_for_page 7200 7200 150 = 89 ∧
    estimate_pdf_page_size O4 ⟨0, 1000000000⟩ 0 ("med") = Except.ok 89 := by
  refine ⟨rfl, by norm_num [pxQ], cap7200, ?_⟩
  have step : estimate_pdf_page_size O4 ⟨0, 1000000000⟩ 0 ("med")
      = Except.ok (_cap_dpi_for_page 7200 7200 150) := rfl
  rw [step, cap7200]

/-! ## Claim C1 — the encoding band -/

lemma ceilLoop_stop {O : Ext} {img : PImage} {subdef : Option ℕ}
    {ceil_len q_floor q : ℕ} {out : Bytes}
    (h : ¬(ceil_len < out.len ∧ q_floor < q)) :
    ceilLoop O img subdef ceil_len q_floor q out = (q, out) := by
  rw [ceilLoop]
  exact dif_neg h

lemma ceilLoop_step {O : Ext} {img : PImage} {subdef : Option ℕ}
    {ceil_len q_floor q : ℕ} {out : Bytes}
    (h : ceil_len < out.len ∧ q_floor < q) :
    ceilLoop O img subdef ceil_len q_floor q out =
      ceilLoop O img subdef ceil_len q_floor (q - 3)
        (encQ O img subdef (q - 3) none true true) := by
  conv_lhs => rw [ceilLoop]
  exact dif_pos h

lemma floorLoop_stop {O : Ext} {img : PImage} {subdef : Option ℕ}
    {floor_len q : ℕ} {out : Bytes}
    (h : ¬(out.len < floor_len ∧ q < 95)) :
    floorLoop O img subdef floor_len q out = (q, out) := by
  rw [floorLoop]
  exact dif_neg h

lemma floorLoop_step {O : Ext} {img : PImage} {subdef : Option ℕ}
    {floor_len q : ℕ} {out : Bytes}
    (h : out.len < floor_len ∧ q < 95) :
    floorLoop O img subdef floor_len q out =
      floorLoop O img subdef floor_len (q + 3)
        (encQ O img subdef (q + 3) none true true) := by
  conv_lhs => rw [floorLoop]
  exact dif_pos h

lemma bandCeilPhase_stop (O : Ext) (img : PImage) (subdef : Option ℕ)
    (kmax : ℚ) (baseline_len q_floor q : ℕ) (out : Bytes)
    (h1 : (ceilLoop O img subdef (ratFloorNat ((baseline_len : ℚ) * kmax))
        q_floor q out).2.len ≤ ratFloorNat ((baseline_len : ℚ) * kmax)) :
    bandCeilPhase O img subdef (some kmax) baseline_len q_floor q out =
      ((ceilLoop O img subdef (ratFloorNat ((baseline_len : ℚ) * kmax))
          q_floor q out).1,
        img,
        (ceilLoop O img subdef (ratFloorNat ((baseline_len : ℚ) * kmax))
          q_floor q out).2) := by
  have hA : ¬(ratFloorNat ((baseline_len : ℚ) * kmax)
      < (ceilLoop O img subdef (ratFloorNat ((baseline_len : ℚ) * kmax))
          q_floor q out).2.len ∧
      (ceilLoop O img subdef (ratFloorNat ((baseline_len : ℚ) * kmax))
          q_floor q out).1 ≤ q_floor ∧
      q_floor ≤ 32) := fun hcc => absurd hcc.1 (not_lt.mpr h1)
  simp only [bandCeilPhase]
  rw [if_neg hA]

lemma bandFloorPhase_ge (O : Ext) (img : PImage) (subdef : Option ℕ)
    (kmin : ℚ) (baseline_len q : ℕ) (out : Bytes)
    (h2 : ratFloorNat ((baseline_len : ℚ) * kmin) ≤ out.len) :
    bandFloorPhase O subdef (some kmin) baseline_len (q, img, out) =
      (out, true) := by
  have hB : ¬(out.len < ratFloorNat ((baseline_len : ℚ) * kmin) ∧ q < 95) :=
    fun hcc => absurd hcc.1 (not_lt.mpr h2)
  simp only [bandFloorPhase]
  rw [floorLoop_stop hB]
  dsimp only
  rw [if_neg (not_lt.mpr h2), decide_eq_true h2]

/-- C1 (amended): with both band ratios set, if the ceiling pass ends with
an encoding that is within the ceiling *and already at or above the floor*,
then `_jpeg_bytes_with_band` returns exactly that encoding, whose size lies
in `[baseline_len*keep_min, baseline_len*keep_max]`, with
`reached_floor = true`.  (When the ceiling-pass output is below the floor,
the floor pass raises quality in +3 steps without re-checking the ceiling,
and the returned size can exceed the ceiling even though no hard limit —
quality floor/cap or the 960px side — was hit: see the counterexample.) -/
theorem C1_in_band (O : Ext) (img0 : PImage) (q_start : ℕ) (kmin kmax : ℚ)
    (baseline_len q_floor : ℕ) (subdef : Option ℕ)
    (h1 : (ceilLoop O (bandImg O img0) subdef
        (ratFloorNat ((baseline_len : ℚ) * kmax)) q_floor (bandInitQ q_start)
        (encQ O (bandImg O img0) subdef (bandInitQ q_start) none true true)).2.len
      ≤ ratFloorNat ((baseline_len : ℚ) * kmax))
    (h2 : ratFloorNat ((baseline_len : ℚ) * kmin)
      ≤ (ceilLoop O (bandImg O img0) subdef
        (ratFloorNat ((baseline_len : ℚ) * kmax)) q_floor (bandInitQ q_start)
        (encQ O (bandImg O img0) subdef (bandInitQ q_start) none true true)).2.len) :
    ratFloorNat ((baseline_len : ℚ) * kmin)
      ≤ (_jpeg_bytes_with_band O img0 q_start (some kmin) (some kmax)
          baseline_len q_floor subdef).1.len ∧
    (_jpeg_bytes_with_band O img0 q_start (some kmin) (some kmax)
        baseline_len q_floor subdef).1.len
      ≤ ratFloorNat ((baseline_len : ℚ) * kmax) ∧
    (_jpeg_bytes_with_band O img0 q_start (some kmin) (some kmax)
        baseline_len q_floor subdef).2 = true := by
  have hband : _jpeg_bytes_with_band O img0 q_start (some kmin) (some kmax)
      baseline_len q_floor subdef =
      ((ceilLoop O (bandImg O img0) subdef
          (ratFloorNat ((baseline_len : ℚ) * kmax)) q_floor (bandInitQ q_start)
          (encQ O (bandImg O img0) subdef (bandInitQ q_start) none true true)).2,
        true) := by
    show bandFloorPhase O subdef (some kmin) baseline_len
        (bandCeilPhase O (bandImg O img0) subdef (some kmax) baseline_len
          q_floor (bandInitQ q_start)
          (encQ O (bandImg O img0) subdef (bandInitQ q_start) none true true))
      = _
    rw [bandCeilPhase_stop O (bandImg O img0) subdef kmax baseline_len q_floor
      (bandInitQ q_start)
      (encQ O (bandImg O img0) subdef (bandInitQ q_start) none true true) h1]
    exact bandFloorPhase_ge O (bandImg O img0) subdef kmin baseline_len _ _ h2
  rw [hband]
  exact ⟨h2, h1, rfl⟩

/-- Constant 40-byte encoder: every encode lands inside the med band
`[30, 48]` of baseline 100 at once. -/
def OC1w : Ext := { Obase with encJ := fun _ _ _ _ _ => ⟨0, 40⟩ }

def imgC1w : PImage := ⟨800, 600, 0, PMode.RGB⟩

/-- C1 witness: a concrete med-level run (baseline 100, band `[30, 48]`)
whose ceiling pass ends in band: the returned 40-byte encoding satisfies
both bounds and the floor flag. -/
theorem C1_in_band_witness :
    ratFloorNat (((100 : ℕ) : ℚ) * (3 / 10 : ℚ))
      ≤ (_jpeg_bytes_with_band OC1w imgC1w 75 (some (3 / 10))
          (some (12 / 25)) 100 30 (some 2)).1.len ∧
    (_jpeg_bytes_with_band OC1w imgC1w 75 (some (3 / 10)) (some (12 / 25))
        100 30 (some 2)).1.len
      ≤ ratFloorNat (((100 : ℕ) : ℚ) * (12 / 25 : ℚ)) ∧
    (_jpeg_bytes_with_band OC1w imgC1w 75 (some (3 / 10)) (some (12 / 25))
        100 30 (some 2)).2 = true := by
  have h48 : ratFloorNat (((100 : ℕ) : ℚ) * (12 / 25 : ℚ)) = 48 := by
    norm_num [ratFloorNat]; decide
  have h30 : ratFloorNat (((100 : ℕ) : ℚ) * (3 / 10 : ℚ)) = 30 := by
    norm_num [ratFloorNat]; decide
  refine C1_in_band OC1w imgC1w 75 (3 / 10) (12 / 25) 100 30 (some 2) ?_ ?_
  · rw [h48, ceilLoop_stop (by decide)]
    decide
  · rw [h48, h30, ceilLoop_stop (by decide)]
    decide

/-- Encoder for the C1 counterexample: 60 bytes at quality ≥ 75, 20 bytes
below. -/
def encC1 : PImage → ℕ → Option ℕ → Bool → Bool → Bytes :=
  fun _ q _ _ _ => if 75 ≤ q then ⟨0, 60⟩ else ⟨0, 20⟩

def OC1 : Ext := { Obase with encJ := encC1 }

def imgC1 : PImage := ⟨800, 600, 0, PMode.RGB⟩

/-- C1 counterexample: med-level parameters (band `[30, 48]` of baseline
100, `q_floor = 30`).  The ceiling pass stops at quality 72 (> `q_floor`,
so no hard quality floor and no downscale), the floor pass stops at
quality 75 (< 95, so no quality cap), the image stays above 960px on its
long side — yet the returned encoding is 60 bytes, *above* the ceiling 48:
the floor pass re-encoded past the ceiling without re-checking it. -/
theorem C1_counterexample :
    ratFloorNat (((100 : ℕ) : ℚ) * (3 / 10 : ℚ)) = 30 ∧
    ratFloorNat (((100 : ℕ) : ℚ) * (12 / 25 : ℚ)) = 48 ∧
    ceilLoop OC1 (bandImg OC1 imgC1) (some 2) 48 30 (bandInitQ 75)
        (encQ OC1 (bandImg OC1 imgC1) (some 2) (bandInitQ 75) none true true)
      = (72, ⟨0, 20⟩) ∧
    floorLoop OC1 (bandImg OC1 imgC1) (some 2) 30 72 ⟨0, 20⟩
      = (75, ⟨0, 60⟩) ∧
    _jpeg_bytes_with_band OC1 imgC1 75 (some (3 / 10)) (some (12 / 25))
        100 30 (some 2) = (⟨0, 60⟩, true) ∧
    ¬ ((60 : ℕ) ≤ 48) := by
  have h48 : ratFloorNat (((100 : ℕ) : ℚ) * (12 / 25 : ℚ)) = 48 := by
    norm_num [ratFloorNat]; decide
  have h30 : ratFloorNat (((100 : ℕ) : ℚ) * (3 / 10 : ℚ)) = 30 := by
    norm_num [ratFloorNat]; decide
  have hceil : ceilLoop OC1 (bandImg OC1 imgC1) (some 2) 48 30 (bandInitQ 75)
      (encQ OC1 (bandImg OC1 imgC1) (some 2) (bandInitQ 75) none true true)
      = (72, ⟨0, 20⟩) := by
    rw [ceilLoop_step (by decide)]
    exact ceilLoop_stop (by decide)
  have hfloor : floorLoop OC1 (bandImg OC1 imgC1) (some 2) 30 72 ⟨0, 20⟩
      = (75, ⟨0, 60⟩) := by
    rw [floorLoop_step (by decide)]
    exact floorLoop_stop (by decide)
  have hceilR : ceilLoop OC1 (bandImg OC1 imgC1) (some 2)
      (ratFloorNat (((100 : ℕ) : ℚ) * (12 / 25 : ℚ))) 30 (bandInitQ 75)
      (encQ OC1 (bandImg OC1 imgC1) (some 2) (bandInitQ 75) none true true)
      = (72, ⟨0, 20⟩) := by
    rw [h48]; exact hceil
  have hp1 : bandCeilPhase OC1 (bandImg OC1 imgC1) (some 2) (some (12 / 25))
      100 30 (bandInitQ 75)
      (encQ OC1 (bandImg OC1 imgC1) (some 2) (bandInitQ 75) none true true)
      = (72, bandImg OC1 imgC1, ⟨0, 20⟩) := by
    rw [bandCeilPhase_stop OC1 (bandImg OC1 imgC1) (some 2) (12 / 25) 100 30
      (bandInitQ 75)
      (encQ OC1 (bandImg OC1 imgC1) (some 2) (bandInitQ 75) none true true)
      (by rw [hceilR, h48]; norm_num)]
    rw [hceilR]
  have hp2 : bandFloorPhase OC1 (some 2) (some (3 / 10)) 100
      (72, bandImg OC1 imgC1, ⟨0, 20⟩) = (⟨0, 60⟩, true) := by
    simp only [bandFloorPhase, h30, hfloor]
    norm_num
  refine ⟨h30, h48, hceil, hfloor, ?_, by norm_num⟩
  show bandFloorPhase OC1 (some 2) (some (3 / 10)) 100
      (bandCeilPhase OC1 (bandImg OC1 imgC1) (some 2) (some (12 / 25)) 100 30
        (bandInitQ 75)
        (encQ OC1 (bandImg OC1 imgC1) (some 2) (bandInitQ 75) none true true))
    = (⟨0, 60⟩, true)
  rw [hp1, hp2]

end PdfFacil
